import Mathlib

/-!
Verification development for the Thorium DAQ controller (`thorium.py`).

The development shallowly embeds the program's core:
  * Python string helpers used by the source (`str.split`, `in`, `str.strip`,
    `float(...)`, `str(...)` on floats and ints) over `List Char`/`String`;
  * the waveform parser `DaqRunner.convert_to_vector`;
  * the output writer `DaqRunner.dump_data`;
  * the timebase query parse `DaqRunner.get_timebase`;
  * the acquisition loop `DaqRunner.get_events`, the sweep loop and the
    shutdown sequence of `DaqRunner.__init__`, as a state-threading function
    over an abstract hardware environment `DaqEnv`;
  * the unbounded ramp status poll, as an exit relation on status sequences.

Numeric values (voltages, the timebase `dt`, sample times) are modelled as
exact decimal fixed-point numbers `Dec` (`num / 10 ^ exp`), the exact values
denoted by the decimal literals the program parses and multiplies.  Python's
binary floating point rounding is not modelled; on the short decimal literals
appearing here parse, multiplication by a small integer, and shortest-repr
printing agree with the exact-decimal semantics.
-/

namespace Thorium

/-- Python `s.split(sep)` for a one-character separator, accumulator form:
splits keeping empty fields, e.g. `"a,,b" → ["a","","b"]` and `"" → [""]`. -/
def pySplitAux (sep : Char) : List Char → List Char → List (List Char)
  | [], acc => [acc.reverse]
  | c :: rest, acc =>
    if c = sep then acc.reverse :: pySplitAux sep rest []
    else pySplitAux sep rest (c :: acc)

/-- Python `s.split(sep)` for a one-character separator (the source only
splits on `"\n"` and `" "`). -/
def pySplit (s : String) (sep : Char) : List String :=
  (pySplitAux sep s.toList []).map String.mk

/-- Python `c in s` for a one-character needle (the source tests `":" in entry`). -/
def hasChar (s : String) (c : Char) : Bool :=
  s.toList.contains c

/-- Python `s.strip()`: drop leading and trailing whitespace. -/
def pyStrip (s : String) : String :=
  String.mk (((s.toList.dropWhile Char.isWhitespace).reverse.dropWhile
    Char.isWhitespace).reverse)

/-- Whether the character list `p` is an initial segment of `l`. -/
def startsWithL : List Char → List Char → Bool
  | [], _ => true
  | _ :: _, [] => false
  | a :: as, b :: bs => a = b && startsWithL as bs

/-- Helper for `strContains`: does `p` occur in `l` at any position? -/
def containsAux (p : List Char) : List Char → Bool
  | [] => startsWithL p []
  | c :: rest => startsWithL p (c :: rest) || containsAux p rest

/-- Python substring test `sub in s` (used by the source for `"ON"`,
`"RAMP UP"` and `"RAMP DOWN"` status checks). -/
def strContains (s sub : String) : Bool :=
  containsAux sub.toList s.toList

/-- Value of a list of decimal digit characters, most significant first. -/
def digitsVal (ds : List Char) : Nat :=
  ds.foldl (fun a c => a * 10 + (c.toNat - 48)) 0

/-- Exact decimal number `num / 10 ^ exp`: the model of the Python float
values the program parses, multiplies and prints. -/
structure Dec where
  num : Int
  exp : Nat
deriving DecidableEq, Repr

/-- The rational value denoted by a `Dec`. -/
def Dec.toRat (d : Dec) : ℚ :=
  (d.num : ℚ) / (10 : ℚ) ^ d.exp

/-- Exact product of decimals (Python `*`, exact on these operands). -/
def Dec.mul (a b : Dec) : Dec :=
  ⟨a.num * b.num, a.exp + b.exp⟩

/-- A natural number as a decimal (the running sample index `time_idx`). -/
def Dec.ofNat (n : Nat) : Dec :=
  ⟨(n : Int), 0⟩

/-- Python `float(s)`: parse an optionally signed decimal literal with an
optional fraction part and an optional decimal exponent, after stripping
surrounding whitespace, returning `none` where Python raises `ValueError`.
(`inf`/`nan` spellings and digit-group underscores are outside the model.) -/
def pyFloat? (s : String) : Option Dec :=
  let cs := (pyStrip s).toList
  let sr : Int × List Char :=
    match cs with
    | '+' :: r => (1, r)
    | '-' :: r => (-1, r)
    | r => (1, r)
  let sgn := sr.1
  let p1 := sr.2.span Char.isDigit
  let ds1 := p1.1
  let p2 : List Char × List Char :=
    match p1.2 with
    | '.' :: r => r.span Char.isDigit
    | r => ([], r)
  let ds2 := p2.1
  if ds1.isEmpty && ds2.isEmpty then none
  else
    let n : Int := sgn * (digitsVal (ds1 ++ ds2) : Int)
    let frac := ds2.length
    match p2.2 with
    | [] => some ⟨n, frac⟩
    | c :: r =>
      if c = 'e' || c = 'E' then
        let er : Int × List Char :=
          match r with
          | '+' :: r2 => (1, r2)
          | '-' :: r2 => (-1, r2)
          | r2 => (1, r2)
        let p3 := er.2.span Char.isDigit
        if p3.1.isEmpty || !p3.2.isEmpty then none
        else
          let e : Int := er.1 * (digitsVal p3.1 : Int)
          let exp2 : Int := (frac : Int) - e
          if exp2 ≤ 0 then some ⟨n * (10 : Int) ^ (-exp2).toNat, 0⟩
          else some ⟨n, exp2.toNat⟩
      else none

/-- Remove trailing `'0'` characters from a digit list. -/
def stripTrailingZeros (l : List Char) : List Char :=
  (l.reverse.dropWhile (fun c => c = '0')).reverse

/-- Decimal digits of `n` padded on the left to at least two characters
(Python's exponent field, as in `1e-09`). -/
def natPad2 (n : Nat) : String :=
  if n < 10 then "0" ++ toString n else toString n

/-- Python `str(x)` / `repr(x)` on a float holding the exact decimal `d`:
shortest digit string, positional format for decimal exponents in `[-4, 16)`
and scientific format with a signed two-digit-minimum exponent otherwise. -/
def pyRepr (d : Dec) : String :=
  if d.num = 0 then "0.0"
  else
    let sgnStr := if d.num < 0 then "-" else ""
    let D := (toString d.num.natAbs).toList
    let digitsK := stripTrailingZeros D
    let z := D.length - digitsK.length
    let k := digitsK.length
    let E : Int := ((k : Int) - 1) + ((z : Int) - (d.exp : Int))
    if -4 ≤ E ∧ E < 16 then
      if 0 ≤ E then
        let ip := E.toNat + 1
        if k ≤ ip then
          sgnStr ++ String.mk (digitsK ++ List.replicate (ip - k) '0') ++ ".0"
        else
          sgnStr ++ String.mk (digitsK.take ip) ++ "." ++ String.mk (digitsK.drop ip)
      else
        sgnStr ++ "0." ++ String.mk (List.replicate (E.natAbs - 1) '0' ++ digitsK)
    else
      let mantStr :=
        match digitsK with
        | [] => "0"
        | [c] => String.mk [c]
        | c :: rest => String.mk [c] ++ "." ++ String.mk rest
      sgnStr ++ mantStr ++ "e" ++ (if 0 ≤ E then "+" else "-") ++ natPad2 E.natAbs

/-- A channel waveform: ordered `(time, voltage)` samples. -/
abbrev Wfm := List (Dec × Dec)

/-- One captured event: the 4-slot `list_channel_wfms` array, one optional
waveform per hardware channel (`None` = never assigned). -/
abbrev Event := List (Option Wfm)

/-- The mutable state of `convert_to_vector`'s scanning loop
(`list_channel_wfms`, `cur_channel`, `time_idx`, `waveform`). -/
structure PState where
  wfms : Event
  cur : Int
  tidx : Nat
  waveform : Wfm
deriving DecidableEq, Repr

/-- Python list assignment `l[i] = x` on a list of fixed length: negative
indices count from the end, out-of-range indices raise `IndexError`. -/
def pySetIdx {α : Type} (l : List α) (i : Int) (x : α) : Except String (List α) :=
  let n : Int := (l.length : Int)
  let j : Int := if i < 0 then i + n else i
  if 0 ≤ j ∧ j < n then .ok (l.set j.toNat x) else .error "IndexError"

/-- Python `int(sub('[^0-9]', '', entry))` from the channel-marker branch:
keep the digit characters and read them as a number; `none` where Python
raises `ValueError` (no digit at all). -/
def markerNum (entry : String) : Option Nat :=
  let ds := entry.toList.filter Char.isDigit
  if ds.isEmpty then none else some (digitsVal ds)

/-- One token step of `convert_to_vector` (thorium.py lines 151-164): a token
containing `":"` finalizes the previous channel (when one is open) and selects
the new zero-based channel; any other token is parsed as a float and appended
as `(dt * time_idx, volt)`, parse failures being silently skipped. -/
def procEntry (dt : Dec) (st : PState) (entry : String) : Except String PState :=
  if hasChar entry ':' then
    let storeRes : Except String PState :=
      if 0 ≤ st.cur then
        match pySetIdx st.wfms st.cur (some st.waveform) with
        | .error e => .error e
        | .ok w => .ok ⟨w, st.cur, 0, []⟩
      else .ok st
    match storeRes with
    | .error e => .error e
    | .ok st1 =>
      match markerNum entry with
      | none => .error "ValueError"
      | some nch => .ok ⟨st1.wfms, (nch : Int) - 1, st1.tidx, st1.waveform⟩
  else
    match pyFloat? (pyStrip entry) with
    | none => .ok st
    | some v =>
      .ok ⟨st.wfms, st.cur, st.tidx + 1,
           st.waveform ++ [(Dec.mul dt (Dec.ofNat st.tidx), v)]⟩

/-- Fold `procEntry` over the tokens of one line. -/
def foldProc (dt : Dec) : PState → List String → Except String PState
  | st, [] => .ok st
  | st, e :: rest =>
    match procEntry dt st e with
    | .error msg => .error msg
    | .ok st' => foldProc dt st' rest

/-- Fold over the lines of the response, tokenizing each on `" "` — the
nested `for line in values.split("\n"): for entry in line.split(" ")` loops. -/
def foldLines (dt : Dec) : PState → List (List String) → Except String PState
  | st, [] => .ok st
  | st, l :: rest =>
    match foldProc dt st l with
    | .error msg => .error msg
    | .ok st' => foldLines dt st' rest

/-- The flat token sequence the nested loops visit. -/
def tokensOf (s : String) : List String :=
  ((pySplit s '\n').map (fun l => pySplit l ' ')).flatten

instance {ε α : Type} [DecidableEq ε] [DecidableEq α] :
    DecidableEq (Except ε α) := fun a b =>
  match a, b with
  | .error x, .error y =>
    if h : x = y then isTrue (congrArg Except.error h)
    else isFalse (fun hh => h (Except.error.inj hh))
  | .error _, .ok _ => isFalse (fun hh => Except.noConfusion hh)
  | .ok _, .error _ => isFalse (fun hh => Except.noConfusion hh)
  | .ok x, .ok y =>
    if h : x = y then isTrue (congrArg Except.ok h)
    else isFalse (fun hh => h (Except.ok.inj hh))

/-- The parser `DaqRunner.convert_to_vector` (thorium.py lines 133-167): scan the raw
response into the 4-slot channel array, then run the final
`list_channel_wfms[cur_channel] = deepcopy(waveform)` assignment (note:
`cur_channel` is `-1` when no marker was seen, which Python resolves to the
last slot).  `.error` marks the uncaught `IndexError`/`ValueError` paths. -/
def convert_to_vector (dt : Dec) (values : Option String) : Except String Event :=
  match values with
  | none => .ok [none, none, none, none]
  | some s =>
    match foldLines dt ⟨[none, none, none, none], -1, 0, []⟩
        ((pySplit s '\n').map (fun l => pySplit l ' ')) with
    | .error msg => .error msg
    | .ok st => pySetIdx st.wfms st.cur (some st.waveform)

/-- The `time,voltage` sample lines of one channel block
(`str(entry[0]) + "," + str(entry[1]) + "\n"` per sample). -/
def sampleLines : Wfm → String
  | [] => ""
  | e :: rest => pyRepr e.1 ++ "," ++ pyRepr e.2 ++ "\n" ++ sampleLines rest

/-- One channel of one event in `DaqRunner.dump_data` (thorium.py lines
87-95): Python's `if channel:` skips both `None` slots and empty waveforms;
otherwise emit the `event;CH{channel+1}` header, the sample lines, and the
blank separator. -/
def channelBlock (en cn : Nat) (ch : Option Wfm) : String :=
  match ch with
  | none => ""
  | some w =>
    if w.isEmpty then ""
    else
      toString en ++ ";CH" ++ toString (cn + 1) ++ "\n" ++ sampleLines w ++ "\n\n"

/-- The `for channel_num, channel in enumerate(event)` loop. -/
def channelBlocks (en : Nat) : Nat → List (Option Wfm) → String
  | _, [] => ""
  | cn, ch :: rest => channelBlock en cn ch ++ channelBlocks en (cn + 1) rest

/-- The text emitted for one event. -/
def eventBlock (en : Nat) (ev : Event) : String :=
  channelBlocks en 0 ev

/-- The `for event_num, event in enumerate(self.list_events)` loop. -/
def eventBlocks : Nat → List Event → String
  | _, [] => ""
  | en, ev :: rest => eventBlock en ev ++ eventBlocks (en + 1) rest

/-- The writer `DaqRunner.dump_data` (thorium.py lines 78-97): the full text written for
an event log. -/
def dump_data (events : List Event) : String :=
  eventBlocks 0 events

/-- The output path `self.output_filename + "_{}V".format(volt)`. -/
def dumpPath (pre volt : String) : String :=
  pre ++ "_" ++ volt ++ "V"

/-- Writing a file with mode `'w'` over a filesystem modelled as a map from
paths to contents: the target path is opened fresh, truncating any prior
content; other paths are untouched. -/
def pyWriteFile (fs : String → Option String) (path content : String) :
    String → Option String :=
  fun q => if q = path then some content else fs q

/-- The combined per-event acquisition query of `DaqRunner.get_events`
(thorium.py lines 111-114): one `"C{}:INSPECT? SIMPLE;".format(channel_number)`
sub-command appended per active channel, with `channel_number` the zero-based
`enumerate` index. -/
def command_payload (channels : List Bool) : String :=
  channels.enum.foldl
    (fun acc p =>
      if p.2 then acc ++ "C" ++ toString p.1 ++ ":INSPECT? SIMPLE;" else acc)
    ""

/-- The claim's reading of the payload, stated from the spec's words: the
concatenation over the indices `i < 4` with `mask[i]` true, in increasing
order, of `"C{i}:INSPECT? SIMPLE;"`. -/
def payloadSpec (mask : List Bool) : String :=
  (((List.range 4).filter (fun i => mask.getD i false)).map
    (fun i => "C" ++ toString i ++ ":INSPECT? SIMPLE;")).foldl (· ++ ·) ""

/-- The timebase query parse of `DaqRunner.get_timebase` (thorium.py lines 122-131):
`float(raw_dt.split(":")[2].split(" ")[1])`, with `.error` for the uncaught
`IndexError`/`ValueError` paths. -/
def get_timebase (raw : String) : Except String Dec :=
  match (pySplit raw ':').get? 2 with
  | none => .error "IndexError"
  | some seg =>
    match (pySplit seg ' ').get? 1 with
    | none => .error "IndexError"
    | some tok =>
      match pyFloat? tok with
      | none => .error "ValueError"
      | some d => .ok d

/-- The hardware/UI environment a run interacts with: the initial supply
status string, per-step counts of ramp-status polls that still report a ramp,
the raw timebase response per step, the raw scope response per `(step, event)`
query, and the index of the first `stop_queue.empty()` check (in program
order) that observes the posted Stop Signal (`none`: never posted). -/
structure DaqEnv where
  initStatus : String
  rampUpPolls : Nat → Nat
  rampDownPolls : Nat
  dtRaw : Nat → String
  resp : Nat → Nat → Option String
  stopAt : Option Nat

/-- Whether the `t`-th `stop_queue.empty()` check observes the stop: the
queue is filled once and never drained, so every check from `stopAt` on
observes it. -/
def stopSeen (stopAt : Option Nat) (t : Nat) : Bool :=
  match stopAt with
  | none => false
  | some t0 => decide (t0 ≤ t)

/-- Observable device actions of a run, in program order. -/
inductive Action where
  | enable : Bool → Action
  | setOutput : String → Action
  | sleepFor : Nat → Action
  | rampUpWait : Nat → Action
  | rampDownWait : Nat → Action
  | queryTimebase : Action
  | dump : String → String → Action
  | closeScope : Action
  | closeCaen : Action
deriving DecidableEq, Repr

/-- The `for event in range(self.num_events)` loop of `DaqRunner.get_events`
(thorium.py lines 99-120): check the Stop Signal first and return on it;
otherwise issue the combined query, parse the response and append the event.
Arguments: remaining iterations, event index within the step, stop-check
counter, accumulated event log. -/
def getEventsLoop (env : DaqEnv) (dt : Dec) (step : Nat) :
    Nat → Nat → Nat → List Event → Except String (Nat × List Event)
  | 0, _, t, acc => .ok (t, acc)
  | fuel + 1, j, t, acc =>
    if stopSeen env.stopAt t then .ok (t + 1, acc)
    else
      match convert_to_vector dt (env.resp step j) with
      | .error e => .error e
      | .ok ev => getEventsLoop env dt step fuel (j + 1) (t + 1) (acc ++ [ev])

/-- The events that `k` uninterrupted capture iterations of step `step`
starting at event index `j` would append (one parsed response each). -/
def parseSeq (env : DaqEnv) (dt : Dec) (step : Nat) :
    Nat → Nat → Except String (List Event)
  | _, 0 => .ok []
  | j, k + 1 =>
    match convert_to_vector dt (env.resp step j) with
    | .error e => .error e
    | .ok ev =>
      match parseSeq env dt step (j + 1) k with
      | .error e => .error e
      | .ok L => .ok (ev :: L)

/-- The `for volt in self.volt_list` sweep loop of `DaqRunner.__init__`
(thorium.py lines 60-70): break on the Stop Signal; otherwise set the voltage,
sleep 5, wait out ramp-up, query the timebase, capture events, and dump the
whole accumulated log to `{prefix}_{volt}V`.  Arguments: remaining voltages,
step index, stop-check counter, current `self.dt`, `self.list_events`, trace
so far. -/
def sweepLoop (env : DaqEnv) (nE : Nat) (pre : String) :
    List String → Nat → Nat → Dec → List Event → List Action →
    Except String (Nat × List Event × List Action)
  | [], _, t, _, evs, tr => .ok (t, evs, tr)
  | v :: rest, step, t, _dt, evs, tr =>
    if stopSeen env.stopAt t then .ok (t + 1, evs, tr)
    else
      match get_timebase (env.dtRaw step) with
      | .error e => .error e
      | .ok d =>
        match getEventsLoop env d step nE 0 (t + 1) evs with
        | .error e => .error e
        | .ok (t', evs') =>
          sweepLoop env nE pre rest (step + 1) t' d evs'
            (tr ++ [Action.setOutput v, Action.sleepFor 5,
                    Action.rampUpWait (env.rampUpPolls step),
                    Action.queryTimebase,
                    Action.dump (dumpPath pre v) (dump_data evs')])

/-- The `enable_output` issued at startup when the initial status string does
not contain `"ON"` (thorium.py lines 57-58). -/
def initTrace (env : DaqEnv) : List Action :=
  if strContains env.initStatus "ON" then [] else [Action.enable true]

/-- Observable outcome of a completed run: the final `self.list_events` and
the action trace. -/
structure RunResult where
  events : List Event
  trace : List Action
deriving DecidableEq, Repr

/-- The body of `DaqRunner.__init__` (thorium.py lines 36-76) after client
construction: optional output enable, the sweep loop, then the shutdown
sequence — neutral `set_output "0"`, the ramp-down wait, and closing the
scope handle followed by the supply handle. -/
def runDaq (env : DaqEnv) (nE : Nat) (pre : String) (volts : List String) :
    Except String RunResult :=
  match sweepLoop env nE pre volts 0 0 ⟨0, 0⟩ [] (initTrace env) with
  | .error e => .error e
  | .ok (_, evs, tr) =>
    .ok ⟨evs, tr ++ [Action.setOutput "0",
                     Action.rampDownWait env.rampDownPolls,
                     Action.closeScope, Action.closeCaen]⟩

/-- The dump actions of a trace, in order. -/
def dumpsOf : List Action → List (String × String)
  | [] => []
  | Action.dump p c :: rest => (p, c) :: dumpsOf rest
  | _ :: rest => dumpsOf rest

/-- The filesystem contents after a run: each dump action is a mode-`'w'`
write of its serialized text to its path. -/
def fsAfter (tr : List Action) : String → Option String :=
  (dumpsOf tr).foldl (fun fs pc => pyWriteFile fs pc.1 pc.2) (fun _ => none)

/-- The busy-wait status polls of thorium.py lines 65-66 and 73-74
(`while "RAMP UP" in self.caen.status_check(...): pass` and the `"RAMP DOWN"`
analogue): given the sequence of status strings successive queries return,
the loop exits after the polls numbered `0..n-1` if and only if poll `n` is
the first whose status no longer contains the ramp substring. -/
def pollExitsAt (statusAt : Nat → String) (sub : String) (n : Nat) : Prop :=
  strContains (statusAt n) sub = false ∧
    ∀ m, m < n → strContains (statusAt m) sub = true

/-- The parsed voltage of a numeric token (`float(entry.strip())`). -/
def tokVal (x : String) : Dec :=
  (pyFloat? (pyStrip x)).getD ⟨0, 0⟩

/-- A token the parser treats as a sample: no `":"`, and `float()` succeeds. -/
def numericTok (x : String) : Prop :=
  hasChar x ':' = false ∧ (pyFloat? (pyStrip x)).isSome = true

/-- A token the parser silently skips: no `":"`, and `float()` fails. -/
def skipTok (x : String) : Prop :=
  hasChar x ':' = false ∧ pyFloat? (pyStrip x) = none

instance (x : String) : Decidable (numericTok x) :=
  inferInstanceAs
    (Decidable (hasChar x ':' = false ∧ (pyFloat? (pyStrip x)).isSome = true))

instance (x : String) : Decidable (skipTok x) :=
  inferInstanceAs
    (Decidable (hasChar x ':' = false ∧ pyFloat? (pyStrip x) = none))

/-- The waveform accumulated from consecutive numeric tokens when the running
sample index starts at `t0`: sample `i` is `(dt * (t0 + i), value)`. -/
def sampleSeq (dt : Dec) : Nat → List String → Wfm
  | _, [] => []
  | t0, x :: xs => (Dec.mul dt (Dec.ofNat t0), tokVal x) :: sampleSeq dt (t0 + 1) xs

/-- Test environment: stop observed at the third check (`stopAt = 2`). -/
def envStop2 : DaqEnv :=
  ⟨"ON", fun _ => 0, 0, fun _ => "A:B: 1e-09 s", fun _ _ => some "C1:I\n1.5",
   some 2⟩

/-- Test environment: the Stop Signal is never posted. -/
def envNoStop : DaqEnv :=
  ⟨"OFF", fun _ => 1, 2, fun _ => "A:B: 2e-09 s", fun _ _ => some "C1:I\n1.5",
   none⟩

/-- Test environment: the Stop Signal is observed by the very first check. -/
def envStop0 : DaqEnv :=
  ⟨"ON", fun _ => 0, 0, fun _ => "", fun _ _ => none, some 0⟩

/-- Multiplication of `Dec` values denotes rational multiplication. -/
theorem Dec.toRat_mul (a b : Dec) : (a.mul b).toRat = a.toRat * b.toRat := by
  simp only [Dec.toRat, Dec.mul, pow_add, Int.cast_mul]
  ring

theorem sampleSeq_length (dt : Dec) :
    ∀ (t0 : Nat) (xs : List String), (sampleSeq dt t0 xs).length = xs.length := by
  intro t0 xs
  induction xs generalizing t0 with
  | nil => rfl
  | cons x xs ih => simp [sampleSeq, ih]

theorem sampleSeq_get? (dt : Dec) :
    ∀ (xs : List String) (t0 i : Nat),
      (sampleSeq dt t0 xs).get? i =
        (xs.get? i).map (fun x => (Dec.mul dt (Dec.ofNat (t0 + i)), tokVal x)) := by
  intro xs
  induction xs with
  | nil => intro t0 i; simp [sampleSeq]
  | cons x xs ih =>
    intro t0 i
    cases i with
    | zero => simp [sampleSeq]
    | succ i =>
      simp only [sampleSeq, List.get?_cons_succ, ih (t0 + 1) i]
      have : t0 + 1 + i = t0 + (i + 1) := by omega
      rw [this]

theorem foldProc_append (dt : Dec) (l1 l2 : List String) :
    ∀ st, foldProc dt st (l1 ++ l2) =
      match foldProc dt st l1 with
      | .error e => .error e
      | .ok st' => foldProc dt st' l2 := by
  induction l1 with
  | nil => intro st; simp [foldProc]
  | cons e l1 ih =>
    intro st
    cases h : procEntry dt st e with
    | error msg => simp [foldProc, h]
    | ok st' => simp [foldProc, h, ih st']

theorem foldLines_eq (dt : Dec) :
    ∀ (ls : List (List String)) (st : PState),
      foldLines dt st ls = foldProc dt st ls.flatten := by
  intro ls
  induction ls with
  | nil => intro st; simp [foldLines, foldProc]
  | cons l ls ih =>
    intro st
    rw [List.flatten_cons, foldProc_append]
    cases h : foldProc dt st l with
    | error msg => simp [foldLines, h]
    | ok st' => simp [foldLines, h, ih st']

/-- Unfolding of `convert_to_vector` on a present response: fold the flat token stream,
then run the final assignment. -/
theorem convert_some (dt : Dec) (s : String) :
    convert_to_vector dt (some s) =
      match foldProc dt ⟨[none, none, none, none], -1, 0, []⟩ (tokensOf s) with
      | .error msg => .error msg
      | .ok st => pySetIdx st.wfms st.cur (some st.waveform) := by
  rw [convert_to_vector, foldLines_eq, tokensOf]

theorem procEntry_numeric (dt : Dec) (st : PState) (x : String) (v : Dec)
    (hc : hasChar x ':' = false) (hv : pyFloat? (pyStrip x) = some v) :
    procEntry dt st x =
      .ok ⟨st.wfms, st.cur, st.tidx + 1,
           st.waveform ++ [(Dec.mul dt (Dec.ofNat st.tidx), v)]⟩ := by
  rw [procEntry, hc, hv]
  rfl

theorem procEntry_skip (dt : Dec) (st : PState) (x : String)
    (hc : hasChar x ':' = false) (hv : pyFloat? (pyStrip x) = none) :
    procEntry dt st x = .ok st := by
  rw [procEntry, hc, hv]
  rfl

theorem procEntry_marker_fresh (dt : Dec) (st : PState) (m : String) (n : Nat)
    (hc : hasChar m ':' = true) (hn : markerNum m = some n) (hcur : st.cur < 0) :
    procEntry dt st m = .ok ⟨st.wfms, (n : Int) - 1, st.tidx, st.waveform⟩ := by
  rw [procEntry, hc]
  have h0 : ¬ (0 ≤ st.cur) := by omega
  simp only [if_pos rfl, if_neg h0, hn]
  simp

theorem procEntry_marker_store (dt : Dec) (st : PState) (m : String) (n : Nat)
    (w' : Event)
    (hc : hasChar m ':' = true) (hn : markerNum m = some n) (hcur : 0 ≤ st.cur)
    (hset : pySetIdx st.wfms st.cur (some st.waveform) = .ok w') :
    procEntry dt st m = .ok ⟨w', (n : Int) - 1, 0, []⟩ := by
  rw [procEntry, hc]
  simp only [if_pos rfl, if_pos hcur, hset, hn]
  simp

theorem foldProc_cons_ok (dt : Dec) (st st' : PState) (e : String)
    (rest : List String) (h : procEntry dt st e = .ok st') :
    foldProc dt st (e :: rest) = foldProc dt st' rest := by
  rw [foldProc, h]

theorem foldProc_numeric (dt : Dec) :
    ∀ (xs : List String) (st : PState), (∀ x ∈ xs, numericTok x) →
      foldProc dt st xs =
        .ok ⟨st.wfms, st.cur, st.tidx + xs.length,
             st.waveform ++ sampleSeq dt st.tidx xs⟩ := by
  intro xs
  induction xs with
  | nil => intro st _; simp [foldProc, sampleSeq]
  | cons x xs ih =>
    intro st h
    obtain ⟨hc, hv⟩ := h x (by simp)
    obtain ⟨v, hv'⟩ := Option.isSome_iff_exists.mp hv
    rw [foldProc_cons_ok dt st _ x xs (procEntry_numeric dt st x v hc hv'),
        ih _ (fun y hy => h y (by simp [hy]))]
    have hval : v = tokVal x := by rw [tokVal, hv']; rfl
    simp only [sampleSeq, hval, List.length_cons, Except.ok.injEq, PState.mk.injEq,
      true_and]
    refine ⟨by omega, ?_⟩
    simp [List.append_assoc]

theorem foldProc_allSkip (dt : Dec) :
    ∀ (xs : List String) (st : PState), (∀ x ∈ xs, skipTok x) →
      foldProc dt st xs = .ok st := by
  intro xs
  induction xs with
  | nil => intro st _; rfl
  | cons x xs ih =>
    intro st h
    obtain ⟨hc, hv⟩ := h x (by simp)
    rw [foldProc_cons_ok dt st st x xs (procEntry_skip dt st x hc hv),
        ih _ (fun y hy => h y (by simp [hy]))]

theorem foldProc_append_ok (dt : Dec) (l1 l2 : List String) (st st' : PState)
    (h : foldProc dt st l1 = .ok st') :
    foldProc dt st (l1 ++ l2) = foldProc dt st' l2 := by
  rw [foldProc_append, h]

theorem foldProc_insert (dt : Dec) (b : String) (l1 l2 : List String)
    (hb : skipTok b) :
    ∀ st, foldProc dt st (l1 ++ b :: l2) = foldProc dt st (l1 ++ l2) := by
  induction l1 with
  | nil =>
    intro st
    simp only [List.nil_append]
    exact foldProc_cons_ok dt st st b l2 (procEntry_skip dt st b hb.1 hb.2)
  | cons e l1 ih =>
    intro st
    simp only [List.cons_append]
    cases h : procEntry dt st e with
    | error msg => rw [foldProc, foldProc, h]
    | ok st' => rw [foldProc, foldProc, h]; exact ih st'

/-- C2: for every raw response whose token stream is a channel-1 marker, `N`
numeric tokens, a channel-3 marker and `N` more numeric tokens, and every
timebase `dt`, the parser returns the 4-slot array with slots 0 and 2 holding
length-`N` waveforms whose sample `i` is `(dt * i, i`-th parsed value`)`, the
index restarting at 0 for each channel's region, and slots 1 and 3 absent. -/
theorem c2_parser_two_channels (dt : Dec) (s m1 m3 : String)
    (xs ys : List String) (N : Nat)
    (htok : tokensOf s = m1 :: (xs ++ m3 :: ys))
    (hm1c : hasChar m1 ':' = true) (hm1n : markerNum m1 = some 1)
    (hm3c : hasChar m3 ':' = true) (hm3n : markerNum m3 = some 3)
    (hxs : ∀ x ∈ xs, numericTok x) (hys : ∀ y ∈ ys, numericTok y)
    (hNx : xs.length = N) (hNy : ys.length = N) :
    convert_to_vector dt (some s) =
      .ok [some (sampleSeq dt 0 xs), none, some (sampleSeq dt 0 ys), none] ∧
    (sampleSeq dt 0 xs).length = N ∧ (sampleSeq dt 0 ys).length = N ∧
    (∀ i, (sampleSeq dt 0 xs).get? i =
      (xs.get? i).map (fun x => (Dec.mul dt (Dec.ofNat i), tokVal x))) ∧
    (∀ i, (sampleSeq dt 0 ys).get? i =
      (ys.get? i).map (fun y => (Dec.mul dt (Dec.ofNat i), tokVal y))) := by
  refine ⟨?_, by rw [sampleSeq_length, hNx], by rw [sampleSeq_length, hNy],
    fun i => by simpa using sampleSeq_get? dt xs 0 i,
    fun i => by simpa using sampleSeq_get? dt ys 0 i⟩
  have hm1 : procEntry dt ⟨[none, none, none, none], -1, 0, []⟩ m1 =
      .ok ⟨[none, none, none, none], 0, 0, []⟩ :=
    procEntry_marker_fresh dt _ m1 1 hm1c hm1n (by norm_num)
  have h1 : foldProc dt ⟨[none, none, none, none], -1, 0, []⟩
        (m1 :: (xs ++ m3 :: ys)) =
      foldProc dt ⟨[none, none, none, none], 0, 0, []⟩ (xs ++ m3 :: ys) :=
    foldProc_cons_ok dt _ _ m1 _ hm1
  have hnum : foldProc dt ⟨[none, none, none, none], 0, 0, []⟩ xs =
      .ok ⟨[none, none, none, none], 0, 0 + xs.length, sampleSeq dt 0 xs⟩ :=
    foldProc_numeric dt xs _ hxs
  have h2 : foldProc dt ⟨[none, none, none, none], 0, 0, []⟩ (xs ++ m3 :: ys) =
      foldProc dt ⟨[none, none, none, none], 0, 0 + xs.length, sampleSeq dt 0 xs⟩
        (m3 :: ys) :=
    foldProc_append_ok dt xs (m3 :: ys) _ _ hnum
  have hm3 : procEntry dt
        ⟨[none, none, none, none], 0, 0 + xs.length, sampleSeq dt 0 xs⟩ m3 =
      .ok ⟨[some (sampleSeq dt 0 xs), none, none, none], 2, 0, []⟩ :=
    procEntry_marker_store dt _ m3 3 _ hm3c hm3n (by norm_num) rfl
  have h3 : foldProc dt
        ⟨[none, none, none, none], 0, 0 + xs.length, sampleSeq dt 0 xs⟩
        (m3 :: ys) =
      foldProc dt ⟨[some (sampleSeq dt 0 xs), none, none, none], 2, 0, []⟩ ys :=
    foldProc_cons_ok dt _ _ m3 ys hm3
  have hnum2 : foldProc dt
        ⟨[some (sampleSeq dt 0 xs), none, none, none], 2, 0, []⟩ ys =
      .ok ⟨[some (sampleSeq dt 0 xs), none, none, none], 2, 0 + ys.length,
           sampleSeq dt 0 ys⟩ :=
    foldProc_numeric dt ys _ hys
  rw [convert_some, htok, h1, h2, h3, hnum2]
  rfl

/-- C6: inserting a token that is neither a channel marker nor numeric (such
as `"ERR"`) between the tokens of a response leaves the parse result — every
surrounding sample's count and value — unchanged, and raises exactly when the
clean response would: malformed tokens inside a data region are skipped. -/
theorem c6_malformed_token_skipped (dt : Dec) (s s' b : String)
    (l1 l2 : List String) (hb : skipTok b)
    (h1 : tokensOf s = l1 ++ b :: l2) (h2 : tokensOf s' = l1 ++ l2) :
    convert_to_vector dt (some s) = convert_to_vector dt (some s') := by
  rw [convert_some, convert_some, h1, h2, foldProc_insert dt b l1 l2 hb]

/-- C7, counterexample: on the empty (but present) text block the parser does
not return an all-absent array — the final assignment writes the empty
accumulator through `cur_channel = -1` into the last slot. -/
theorem c7_counterexample :
    convert_to_vector ⟨0, 0⟩ (some "") = .ok [none, none, none, some []] ∧
    convert_to_vector ⟨0, 0⟩ (some "") ≠ .ok [none, none, none, none] := by
  exact ⟨by decide, by decide⟩

/-- C7, amended: for the absent input the parser returns the all-absent
array; for a text block with no marker and no numeric token (in particular a
whitespace-only block) slots 0-2 are absent but the last slot is assigned the
empty waveform. -/
theorem c7_empty_input_amended (dt : Dec) (s : String)
    (h : ∀ x ∈ tokensOf s, skipTok x) :
    convert_to_vector dt none = .ok [none, none, none, none] ∧
    convert_to_vector dt (some s) = .ok [none, none, none, some []] := by
  refine ⟨rfl, ?_⟩
  rw [convert_some, foldProc_allSkip dt (tokensOf s) _ h]
  rfl

/-- C8: a response consisting only of numeric tokens (no `":"` marker
anywhere) does not crash the parser: `cur_channel` stays `-1`, and the final
assignment resolves the negative index to the last slot, so the result is the
single defined fallback — slots 0-2 absent and slot 3 holding the
accumulated samples. -/
theorem c8_no_marker_fallback (dt : Dec) (s : String)
    (h : ∀ x ∈ tokensOf s, numericTok x) :
    convert_to_vector dt (some s) =
      .ok [none, none, none, some (sampleSeq dt 0 (tokensOf s))] := by
  rw [convert_some, foldProc_numeric dt (tokensOf s) _ h]
  rfl

/-- C5: the writer emits exactly the claimed block for the one-event example
(`0.0` and `1e-09` being Python's float formatting of the exact times `0` and
`10^-9`); absent channels contribute nothing at all; the output path is
`{prefix}_{voltage}V`; and a mode-`'w'` write to the same path fully replaces
earlier content. -/
theorem c5_output_format :
    dump_data [[some [(⟨0, 0⟩, ⟨15, 1⟩), (⟨1, 9⟩, ⟨16, 1⟩)], none, none, none]] =
      "0;CH1\n0.0,1.5\n1e-09,1.6\n\n\n" ∧
    (∀ pre volt, dumpPath pre volt = pre ++ "_" ++ volt ++ "V") ∧
    (∀ en cn (ev : List (Option Wfm)),
      channelBlocks en cn (ev ++ [none]) = channelBlocks en cn ev) ∧
    (∀ fs p c1 c2 q,
      pyWriteFile (pyWriteFile fs p c1) p c2 q = pyWriteFile fs p c2 q) := by
  refine ⟨by decide, fun pre volt => rfl, ?_, ?_⟩
  · intro en cn ev
    induction ev generalizing cn with
    | nil => rfl
    | cons ch ev ih =>
      simp only [List.cons_append, channelBlocks]
      exact congrArg (channelBlock en cn ch ++ ·) (ih (cn + 1))
  · intro fs p c1 c2 q
    unfold pyWriteFile
    by_cases h : q = p <;> simp [h]

theorem list_len4 {α : Type} {l : List α} (h : l.length = 4) :
    ∃ a b c d, l = [a, b, c, d] := by
  cases l with
  | nil => simp at h
  | cons a l =>
    cases l with
    | nil => simp at h
    | cons b l =>
      cases l with
      | nil => simp at h
      | cons c l =>
        cases l with
        | nil => simp at h
        | cons d l =>
          cases l with
          | nil => exact ⟨a, b, c, d, rfl⟩
          | cons e l => simp at h

/-- C10: for every 4-element active-channel mask the combined acquisition
query is the in-order concatenation of `"C{i}:INSPECT? SIMPLE;"` over the
active zero-based indices — the first hardware channel is addressed as `C0`,
unlike the one-based `CH{n}` labels of the writer's headers. -/
theorem c10_payload_zero_based (mask : List Bool) (h : mask.length = 4) :
    command_payload mask = payloadSpec mask ∧
    command_payload [true, false, false, false] = "C0:INSPECT? SIMPLE;" ∧
    channelBlock 0 0 (some [(⟨0, 0⟩, ⟨0, 0⟩)]) = "0;CH1\n0.0,0.0\n\n\n" := by
  refine ⟨?_, by decide, by decide⟩
  obtain ⟨a, b, c, d, rfl⟩ := list_len4 h
  cases a <;> cases b <;> cases c <;> cases d <;> decide

theorem pollExits_iff (statusAt : Nat → String) (sub : String) :
    (∃ n, pollExitsAt statusAt sub n) ↔
      (∃ n, strContains (statusAt n) sub = false) := by
  constructor
  · rintro ⟨n, hn, -⟩
    exact ⟨n, hn⟩
  · rintro ⟨n, hn⟩
    have hex : ∃ m, strContains (statusAt m) sub = false := ⟨n, hn⟩
    refine ⟨Nat.find hex, Nat.find_spec hex, fun m hm => ?_⟩
    have := Nat.find_min hex hm
    simpa using this

theorem pollBlocks (statusAt : Nat → String) (sub : String)
    (h : ∀ n, strContains (statusAt n) sub = true) :
    ¬ ∃ n, pollExitsAt statusAt sub n := by
  rintro ⟨n, hn, -⟩
  rw [h n] at hn
  cases hn

/-- C9: the ramp-up and ramp-down waits are unbounded status polls — the
loop exits (after some first clearing poll) if and only if some status query
returns a string no longer containing the ramp substring, and if every query
keeps reporting the ramp condition, no exit point exists: there is no timeout
or error path. -/
theorem c9_ramp_poll_unbounded (statusAt : Nat → String) :
    ((∃ n, pollExitsAt statusAt "RAMP UP" n) ↔
      (∃ n, strContains (statusAt n) "RAMP UP" = false)) ∧
    ((∀ n, strContains (statusAt n) "RAMP UP" = true) →
      ¬ ∃ n, pollExitsAt statusAt "RAMP UP" n) ∧
    ((∃ n, pollExitsAt statusAt "RAMP DOWN" n) ↔
      (∃ n, strContains (statusAt n) "RAMP DOWN" = false)) ∧
    ((∀ n, strContains (statusAt n) "RAMP DOWN" = true) →
      ¬ ∃ n, pollExitsAt statusAt "RAMP DOWN" n) :=
  ⟨pollExits_iff statusAt "RAMP UP", pollBlocks statusAt "RAMP UP",
   pollExits_iff statusAt "RAMP DOWN", pollBlocks statusAt "RAMP DOWN"⟩

theorem parseSeq_succ_ok (env : DaqEnv) (dt : Dec) (step j k : Nat)
    (L : List Event) (h : parseSeq env dt step j (k + 1) = .ok L) :
    ∃ ev L', convert_to_vector dt (env.resp step j) = .ok ev ∧
      parseSeq env dt step (j + 1) k = .ok L' ∧ L = ev :: L' := by
  rw [parseSeq] at h
  rcases hconv : convert_to_vector dt (env.resp step j) with msg | ev <;>
    rw [hconv] at h
  · exact absurd h (by simp)
  · rcases hrec : parseSeq env dt step (j + 1) k with msg | L' <;> rw [hrec] at h
    · exact absurd h (by simp)
    · exact ⟨ev, L', rfl, rfl, (Except.ok.inj h).symm⟩

theorem parseSeq_length (env : DaqEnv) (dt : Dec) (step : Nat) :
    ∀ (k j : Nat) (L : List Event),
      parseSeq env dt step j k = .ok L → L.length = k := by
  intro k
  induction k with
  | zero =>
    intro j L h
    rw [parseSeq] at h
    cases h
    rfl
  | succ k ih =>
    intro j L h
    obtain ⟨ev, L', -, hrec, rfl⟩ := parseSeq_succ_ok env dt step j k L h
    simp [ih (j + 1) L' hrec]

theorem getEventsLoop_succ_stop (env : DaqEnv) (dt : Dec)
    (step fuel j t : Nat) (acc : List Event)
    (hs : stopSeen env.stopAt t = true) :
    getEventsLoop env dt step (fuel + 1) j t acc = .ok (t + 1, acc) := by
  rw [getEventsLoop]
  simp [hs]

theorem getEventsLoop_succ_capture (env : DaqEnv) (dt : Dec)
    (step fuel j t : Nat) (acc : List Event) (ev : Event)
    (hs : stopSeen env.stopAt t = false)
    (hconv : convert_to_vector dt (env.resp step j) = .ok ev) :
    getEventsLoop env dt step (fuel + 1) j t acc =
      getEventsLoop env dt step fuel (j + 1) (t + 1) (acc ++ [ev]) := by
  rw [getEventsLoop]
  simp [hs, hconv]

theorem getEventsLoop_noStop (env : DaqEnv) (dt : Dec) (step : Nat)
    (hstop : env.stopAt = none) :
    ∀ (fuel j t : Nat) (acc L : List Event),
      parseSeq env dt step j fuel = .ok L →
      getEventsLoop env dt step fuel j t acc = .ok (t + fuel, acc ++ L) := by
  intro fuel
  induction fuel with
  | zero =>
    intro j t acc L hL
    rw [parseSeq] at hL
    cases hL
    simp [getEventsLoop]
  | succ fuel ih =>
    intro j t acc L hL
    obtain ⟨ev, L', hconv, hrec, rfl⟩ := parseSeq_succ_ok env dt step j fuel L hL
    have hs : stopSeen env.stopAt t = false := by rw [hstop]; rfl
    rw [getEventsLoop_succ_capture env dt step fuel j t acc ev hs hconv,
        ih (j + 1) (t + 1) (acc ++ [ev]) L' hrec]
    simp only [Except.ok.injEq, Prod.mk.injEq]
    exact ⟨by omega, by simp⟩

theorem getEventsLoop_stopAt (env : DaqEnv) (dt : Dec) (step t0 : Nat)
    (hstop : env.stopAt = some t0) :
    ∀ (k fuel j t : Nat) (acc L : List Event), t + k = t0 → k < fuel →
      parseSeq env dt step j k = .ok L →
      getEventsLoop env dt step fuel j t acc = .ok (t + k + 1, acc ++ L) := by
  intro k
  induction k with
  | zero =>
    intro fuel j t acc L ht hk hL
    cases fuel with
    | zero => omega
    | succ fuel =>
      have hs : stopSeen env.stopAt t = true := by
        rw [hstop]; simp [stopSeen]; omega
      rw [getEventsLoop_succ_stop env dt step fuel j t acc hs]
      rw [parseSeq] at hL
      cases hL
      simp
  | succ k ih =>
    intro fuel j t acc L ht hk hL
    cases fuel with
    | zero => omega
    | succ fuel =>
      obtain ⟨ev, L', hconv, hrec, rfl⟩ := parseSeq_succ_ok env dt step j k L hL
      have hs : stopSeen env.stopAt t = false := by
        rw [hstop]; simp [stopSeen]; omega
      rw [getEventsLoop_succ_capture env dt step fuel j t acc ev hs hconv,
          ih fuel (j + 1) (t + 1) (acc ++ [ev]) L' (by omega) (by omega) hrec]
      simp only [Except.ok.injEq, Prod.mk.injEq]
      exact ⟨by omega, by simp⟩

theorem sweepLoop_stop (env : DaqEnv) (nE : Nat) (pre v : String)
    (rest : List String) (step t : Nat) (dt : Dec) (evs : List Event)
    (tr : List Action) (hs : stopSeen env.stopAt t = true) :
    sweepLoop env nE pre (v :: rest) step t dt evs tr = .ok (t + 1, evs, tr) := by
  rw [sweepLoop]
  simp [hs]

theorem sweepLoop_go (env : DaqEnv) (nE : Nat) (pre v : String)
    (rest : List String) (step t : Nat) (dt : Dec) (evs : List Event)
    (tr : List Action) (d : Dec) (t' : Nat) (evs' : List Event)
    (hs : stopSeen env.stopAt t = false)
    (ht : get_timebase (env.dtRaw step) = .ok d)
    (hev : getEventsLoop env d step nE 0 (t + 1) evs = .ok (t', evs')) :
    sweepLoop env nE pre (v :: rest) step t dt evs tr =
      sweepLoop env nE pre rest (step + 1) t' d evs'
        (tr ++ [Action.setOutput v, Action.sleepFor 5,
                Action.rampUpWait (env.rampUpPolls step), Action.queryTimebase,
                Action.dump (dumpPath pre v) (dump_data evs')]) := by
  rw [sweepLoop]
  simp [hs, ht, hev]

theorem dumpsOf_append (l1 l2 : List Action) :
    dumpsOf (l1 ++ l2) = dumpsOf l1 ++ dumpsOf l2 := by
  induction l1 with
  | nil => rfl
  | cons a l1 ih => cases a <;> simp [dumpsOf, ih]

theorem dumpsOf_initTrace (env : DaqEnv) : dumpsOf (initTrace env) = [] := by
  unfold initTrace
  cases h : strContains env.initStatus "ON" <;> simp [h] <;> rfl

theorem mem_initTrace (env : DaqEnv) :
    ∀ a ∈ initTrace env, a = Action.enable true := by
  unfold initTrace
  cases h : strContains env.initStatus "ON" <;> simp [h]

theorem myStringDataAppend (s t : String) :
    (s ++ t).data = s.data ++ t.data := rfl

theorem dumpPath_inj (pre a b : String) (h : dumpPath pre a = dumpPath pre b) :
    a = b := by
  unfold dumpPath at h
  have h1 : ((pre ++ "_") ++ a ++ "V").data = ((pre ++ "_") ++ b ++ "V").data :=
    congrArg String.data h
  rw [myStringDataAppend, myStringDataAppend, myStringDataAppend,
      myStringDataAppend] at h1
  have h2 := List.append_cancel_right h1
  have h3 := List.append_cancel_left h2
  cases a with
  | mk da =>
    cases b with
    | mk db => exact congrArg String.mk h3

/-- C3: when the Stop Signal is first observed by the `(k+1)`-th capture
check of a step (`k < num_events`), that step's capture loop ends with
exactly `k` events appended (no incomplete marker of any kind), the dump for
the step still runs — over the log extended by exactly those `k` events —
and no further voltage step is executed: the sweep returns with the trace
ending at that step's dump. -/
theorem c3_stop_mid_capture (env : DaqEnv) (nE : Nat) (pre : String)
    (v : String) (rest : List String) (step t : Nat) (dt d : Dec)
    (evs : List Event) (tr : List Action) (k : Nat) (L : List Event)
    (hk : k < nE) (hstop : env.stopAt = some (t + 1 + k))
    (ht : get_timebase (env.dtRaw step) = .ok d)
    (hp : parseSeq env d step 0 k = .ok L) :
    (∃ tFin, sweepLoop env nE pre (v :: rest) step t dt evs tr =
      .ok (tFin, evs ++ L,
        tr ++ [Action.setOutput v, Action.sleepFor 5,
               Action.rampUpWait (env.rampUpPolls step), Action.queryTimebase,
               Action.dump (dumpPath pre v) (dump_data (evs ++ L))])) ∧
    L.length = k := by
  have hs0 : stopSeen env.stopAt t = false := by
    rw [hstop]; simp [stopSeen]; omega
  have hev : getEventsLoop env d step nE 0 (t + 1) evs =
      .ok (t + 1 + k + 1, evs ++ L) :=
    getEventsLoop_stopAt env d step (t + 1 + k) hstop k nE 0 (t + 1) evs L rfl
      hk hp
  refine ⟨?_, parseSeq_length env d step k 0 L hp⟩
  rw [sweepLoop_go env nE pre v rest step t dt evs tr d _ _ hs0 ht hev]
  cases rest with
  | nil => exact ⟨t + 1 + k + 1, by rw [sweepLoop]⟩
  | cons v2 rest2 =>
    have hs1 : stopSeen env.stopAt (t + 1 + k + 1) = true := by
      rw [hstop]; simp [stopSeen]
    exact ⟨t + 1 + k + 1 + 1, by
      rw [sweepLoop_stop env nE pre v2 rest2 (step + 1) (t + 1 + k + 1) d
        (evs ++ L) _ hs1]⟩

/-- C1: over a two-step sweep that is never stopped, the event log is
cumulative — the dump of step 1 serializes the step-1 events and the dump of
step 2 serializes the step-1 *and* step-2 events — and with distinct
voltages the step-1 file is not rewritten afterwards: after the run it still
holds exactly the step-1 dump. -/
theorem c1_cumulative_dump (env : DaqEnv) (nE : Nat) (pre v1 v2 : String)
    (d0 d1 : Dec) (L1 L2 : List Event)
    (hstop : env.stopAt = none) (hv : v1 ≠ v2)
    (ht0 : get_timebase (env.dtRaw 0) = .ok d0)
    (hp0 : parseSeq env d0 0 0 nE = .ok L1)
    (ht1 : get_timebase (env.dtRaw 1) = .ok d1)
    (hp1 : parseSeq env d1 1 0 nE = .ok L2) :
    ∃ r : RunResult, runDaq env nE pre [v1, v2] = .ok r ∧
      r.events = L1 ++ L2 ∧
      dumpsOf r.trace = [(dumpPath pre v1, dump_data L1),
                         (dumpPath pre v2, dump_data (L1 ++ L2))] ∧
      fsAfter r.trace (dumpPath pre v1) = some (dump_data L1) ∧
      fsAfter r.trace (dumpPath pre v2) = some (dump_data (L1 ++ L2)) := by
  have hne : dumpPath pre v1 ≠ dumpPath pre v2 :=
    fun hcontra => hv (dumpPath_inj pre v1 v2 hcontra)
  have hs : ∀ t, stopSeen env.stopAt t = false := fun t => by rw [hstop]; rfl
  have hev0 : getEventsLoop env d0 0 nE 0 1 [] = .ok (1 + nE, L1) := by
    simpa using getEventsLoop_noStop env d0 0 hstop nE 0 1 [] L1 hp0
  have hev1 := getEventsLoop_noStop env d1 1 hstop nE 0 (1 + nE + 1) L1 L2 hp1
  rw [runDaq,
    sweepLoop_go env nE pre v1 [v2] 0 0 ⟨0, 0⟩ [] (initTrace env) d0 (1 + nE)
      L1 (hs 0) ht0 hev0,
    sweepLoop_go env nE pre v2 [] 1 (1 + nE) d0 L1 _ d1 (1 + nE + 1 + nE)
      (L1 ++ L2) (hs (1 + nE)) ht1 hev1,
    sweepLoop]
  refine ⟨_, rfl, rfl, ?_, ?_, ?_⟩
  · simp [dumpsOf_append, dumpsOf_initTrace, dumpsOf]
  · simp [fsAfter, dumpsOf_append, dumpsOf_initTrace, dumpsOf, pyWriteFile, hne]
  · simp [fsAfter, dumpsOf_append, dumpsOf_initTrace, dumpsOf, pyWriteFile]

/-- C4: if the Stop Signal is already observable at the very first check, no
voltage step executes — the only `set_output` in the whole run is the neutral
`"0"` — yet the shutdown sequence still runs exactly once: neutral output,
ramp-down wait, then closing the scope handle followed by the supply
handle. -/
theorem c4_stop_before_sweep (env : DaqEnv) (nE : Nat) (pre : String)
    (volts : List String) (hstop : env.stopAt = some 0) :
    runDaq env nE pre volts =
      .ok ⟨[], initTrace env ++
        [Action.setOutput "0", Action.rampDownWait env.rampDownPolls,
         Action.closeScope, Action.closeCaen]⟩ ∧
    (∀ s, Action.setOutput s ∈ initTrace env ++
        [Action.setOutput "0", Action.rampDownWait env.rampDownPolls,
         Action.closeScope, Action.closeCaen] → s = "0") ∧
    (initTrace env ++
        [Action.setOutput "0", Action.rampDownWait env.rampDownPolls,
         Action.closeScope, Action.closeCaen]).count Action.closeScope = 1 ∧
    (initTrace env ++
        [Action.setOutput "0", Action.rampDownWait env.rampDownPolls,
         Action.closeScope, Action.closeCaen]).count Action.closeCaen = 1 := by
  refine ⟨?_, ?_, ?_, ?_⟩
  · cases volts with
    | nil => rfl
    | cons v rest =>
      have hsx : stopSeen env.stopAt 0 = true := by rw [hstop]; rfl
      rw [runDaq, sweepLoop_stop env nE pre v rest 0 0 ⟨0, 0⟩ [] (initTrace env)
        hsx]
  · intro s hsmem
    rcases List.mem_append.mp hsmem with h | h
    · have := mem_initTrace env _ h
      exact absurd this (by simp)
    · simpa using h
  · rw [List.count_append]
    unfold initTrace
    cases h : strContains env.initStatus "ON" <;> simp [h, List.count_cons]
  · rw [List.count_append]
    unfold initTrace
    cases h : strContains env.initStatus "ON" <;> simp [h, List.count_cons]

theorem c2_witness :
    (tokensOf "C1:INSP\n0.5 1.5\nC3:INSP\n2.5 3.5" =
      "C1:INSP" :: (["0.5", "1.5"] ++ "C3:INSP" :: ["2.5", "3.5"])) ∧
    hasChar "C1:INSP" ':' = true ∧ markerNum "C1:INSP" = some 1 ∧
    hasChar "C3:INSP" ':' = true ∧ markerNum "C3:INSP" = some 3 ∧
    (∀ x ∈ ["0.5", "1.5"], numericTok x) ∧
    (∀ y ∈ ["2.5", "3.5"], numericTok y) ∧
    (["0.5", "1.5"] : List String).length = 2 ∧
    (["2.5", "3.5"] : List String).length = 2 ∧
    (convert_to_vector ⟨1, 9⟩ (some "C1:INSP\n0.5 1.5\nC3:INSP\n2.5 3.5") =
      .ok [some (sampleSeq ⟨1, 9⟩ 0 ["0.5", "1.5"]), none,
           some (sampleSeq ⟨1, 9⟩ 0 ["2.5", "3.5"]), none] ∧
     (sampleSeq ⟨1, 9⟩ 0 ["0.5", "1.5"]).length = 2 ∧
     (sampleSeq ⟨1, 9⟩ 0 ["2.5", "3.5"]).length = 2 ∧
     (∀ i, (sampleSeq ⟨1, 9⟩ 0 ["0.5", "1.5"]).get? i =
       ((["0.5", "1.5"] : List String).get? i).map
         (fun x => (Dec.mul ⟨1, 9⟩ (Dec.ofNat i), tokVal x))) ∧
     (∀ i, (sampleSeq ⟨1, 9⟩ 0 ["2.5", "3.5"]).get? i =
       ((["2.5", "3.5"] : List String).get? i).map
         (fun y => (Dec.mul ⟨1, 9⟩ (Dec.ofNat i), tokVal y)))) :=
  ⟨by decide, by decide, by decide, by decide, by decide, by decide, by decide,
   by decide, by decide,
   c2_parser_two_channels ⟨1, 9⟩ "C1:INSP\n0.5 1.5\nC3:INSP\n2.5 3.5"
     "C1:INSP" "C3:INSP" ["0.5", "1.5"] ["2.5", "3.5"] 2 (by decide) (by decide)
     (by decide) (by decide) (by decide) (by decide) (by decide) (by decide)
     (by decide)⟩

theorem c6_witness :
    skipTok "ERR" ∧
    tokensOf "C1:I\n0.5 ERR 1.5" = ["C1:I", "0.5"] ++ "ERR" :: ["1.5"] ∧
    tokensOf "C1:I\n0.5 1.5" = ["C1:I", "0.5"] ++ ["1.5"] ∧
    convert_to_vector ⟨1, 0⟩ (some "C1:I\n0.5 ERR 1.5") =
      convert_to_vector ⟨1, 0⟩ (some "C1:I\n0.5 1.5") :=
  ⟨by decide, by decide, by decide,
   c6_malformed_token_skipped ⟨1, 0⟩ "C1:I\n0.5 ERR 1.5" "C1:I\n0.5 1.5" "ERR"
     ["C1:I", "0.5"] ["1.5"] (by decide) (by decide) (by decide)⟩

theorem c7_witness :
    (∀ x ∈ tokensOf " ", skipTok x) ∧
    (convert_to_vector ⟨0, 0⟩ none = .ok [none, none, none, none] ∧
     convert_to_vector ⟨0, 0⟩ (some " ") = .ok [none, none, none, some []]) :=
  ⟨by decide, c7_empty_input_amended ⟨0, 0⟩ " " (by decide)⟩

theorem c8_witness :
    (∀ x ∈ tokensOf "0.5 1.5", numericTok x) ∧
    convert_to_vector ⟨2, 9⟩ (some "0.5 1.5") =
      .ok [none, none, none, some (sampleSeq ⟨2, 9⟩ 0 (tokensOf "0.5 1.5"))] :=
  ⟨by decide, c8_no_marker_fallback ⟨2, 9⟩ "0.5 1.5" (by decide)⟩

theorem c10_witness :
    ([true, true, false, true] : List Bool).length = 4 ∧
    (command_payload [true, true, false, true] =
       payloadSpec [true, true, false, true] ∧
     command_payload [true, false, false, false] = "C0:INSPECT? SIMPLE;" ∧
     channelBlock 0 0 (some [(⟨0, 0⟩, ⟨0, 0⟩)]) = "0;CH1\n0.0,0.0\n\n\n") :=
  ⟨by decide, c10_payload_zero_based [true, true, false, true] (by decide)⟩

theorem c9_witness :
    ((∃ n, pollExitsAt (fun _ : Nat => "RAMP UP") "RAMP UP" n) ↔
      (∃ _n : Nat, strContains "RAMP UP" "RAMP UP" = false)) ∧
    ((∀ _n : Nat, strContains "RAMP UP" "RAMP UP" = true) →
      ¬ ∃ n, pollExitsAt (fun _ : Nat => "RAMP UP") "RAMP UP" n) ∧
    ((∃ n, pollExitsAt (fun _ : Nat => "RAMP UP") "RAMP DOWN" n) ↔
      (∃ _n : Nat, strContains "RAMP UP" "RAMP DOWN" = false)) ∧
    ((∀ _n : Nat, strContains "RAMP UP" "RAMP DOWN" = true) →
      ¬ ∃ n, pollExitsAt (fun _ : Nat => "RAMP UP") "RAMP DOWN" n) :=
  c9_ramp_poll_unbounded (fun _ : Nat => "RAMP UP")

theorem c3_witness :
    (1 < 2) ∧ envStop2.stopAt = some (0 + 1 + 1) ∧
    get_timebase (envStop2.dtRaw 0) = .ok ⟨1, 9⟩ ∧
    parseSeq envStop2 ⟨1, 9⟩ 0 0 1 =
      .ok [[some [(⟨0, 9⟩, ⟨15, 1⟩)], none, none, none]] ∧
    ((∃ tFin, sweepLoop envStop2 2 "out" ("10" :: ["20"]) 0 0 ⟨0, 0⟩ [] [] =
        .ok (tFin,
          [] ++ [[some [(⟨0, 9⟩, ⟨15, 1⟩)], none, none, none]],
          [] ++ [Action.setOutput "10", Action.sleepFor 5,
                 Action.rampUpWait (envStop2.rampUpPolls 0),
                 Action.queryTimebase,
                 Action.dump (dumpPath "out" "10")
                   (dump_data ([] ++
                     [[some [(⟨0, 9⟩, ⟨15, 1⟩)], none, none, none]]))])) ∧
      ([[some [(⟨0, 9⟩, ⟨15, 1⟩)], none, none, none]] : List Event).length = 1) :=
  ⟨by decide, by decide, by decide, by decide,
   c3_stop_mid_capture envStop2 2 "out" "10" ["20"] 0 0 ⟨0, 0⟩ ⟨1, 9⟩ [] [] 1
     [[some [(⟨0, 9⟩, ⟨15, 1⟩)], none, none, none]] (by decide) (by decide)
     (by decide) (by decide)⟩

theorem c1_witness :
    envNoStop.stopAt = none ∧ ("10" : String) ≠ "20" ∧
    get_timebase (envNoStop.dtRaw 0) = .ok ⟨2, 9⟩ ∧
    parseSeq envNoStop ⟨2, 9⟩ 0 0 1 =
      .ok [[some [(⟨0, 9⟩, ⟨15, 1⟩)], none, none, none]] ∧
    get_timebase (envNoStop.dtRaw 1) = .ok ⟨2, 9⟩ ∧
    parseSeq envNoStop ⟨2, 9⟩ 1 0 1 =
      .ok [[some [(⟨0, 9⟩, ⟨15, 1⟩)], none, none, none]] ∧
    (∃ r : RunResult, runDaq envNoStop 1 "out" ["10", "20"] = .ok r ∧
      r.events = [[some [(⟨0, 9⟩, ⟨15, 1⟩)], none, none, none]] ++
        [[some [(⟨0, 9⟩, ⟨15, 1⟩)], none, none, none]] ∧
      dumpsOf r.trace =
        [(dumpPath "out" "10",
          dump_data [[some [(⟨0, 9⟩, ⟨15, 1⟩)], none, none, none]]),
         (dumpPath "out" "20",
          dump_data ([[some [(⟨0, 9⟩, ⟨15, 1⟩)], none, none, none]] ++
            [[some [(⟨0, 9⟩, ⟨15, 1⟩)], none, none, none]]))] ∧
      fsAfter r.trace (dumpPath "out" "10") =
        some (dump_data [[some [(⟨0, 9⟩, ⟨15, 1⟩)], none, none, none]]) ∧
      fsAfter r.trace (dumpPath "out" "20") =
        some (dump_data ([[some [(⟨0, 9⟩, ⟨15, 1⟩)], none, none, none]] ++
          [[some [(⟨0, 9⟩, ⟨15, 1⟩)], none, none, none]]))) :=
  ⟨rfl, by decide, by decide, by decide, by decide, by decide,
   c1_cumulative_dump envNoStop 1 "out" "10" "20" ⟨2, 9⟩ ⟨2, 9⟩
     [[some [(⟨0, 9⟩, ⟨15, 1⟩)], none, none, none]]
     [[some [(⟨0, 9⟩, ⟨15, 1⟩)], none, none, none]] rfl (by decide) (by decide)
     (by decide) (by decide) (by decide)⟩

theorem c4_witness :
    envStop0.stopAt = some 0 ∧
    (runDaq envStop0 3 "out" ["100"] =
      .ok ⟨[], initTrace envStop0 ++
        [Action.setOutput "0", Action.rampDownWait envStop0.rampDownPolls,
         Action.closeScope, Action.closeCaen]⟩ ∧
     (∀ s, Action.setOutput s ∈ initTrace envStop0 ++
        [Action.setOutput "0", Action.rampDownWait envStop0.rampDownPolls,
         Action.closeScope, Action.closeCaen] → s = "0") ∧
     (initTrace envStop0 ++
        [Action.setOutput "0", Action.rampDownWait envStop0.rampDownPolls,
         Action.closeScope, Action.closeCaen]).count Action.closeScope = 1 ∧
     (initTrace envStop0 ++
        [Action.setOutput "0", Action.rampDownWait envStop0.rampDownPolls,
         Action.closeScope, Action.closeCaen]).count Action.closeCaen = 1) :=
  ⟨rfl, c4_stop_before_sweep envStop0 3 "out" ["100"] rfl⟩

example : pyRepr ⟨15, 1⟩ = "1.5" := by decide
example : pyRepr ⟨16, 1⟩ = "1.6" := by decide
example : pyRepr ⟨1, 9⟩ = "1e-09" := by decide
example : pyRepr ⟨0, 0⟩ = "0.0" := by decide
example : pyRepr ⟨150, 1⟩ = "15.0" := by decide
example : pyFloat? "2e-09" = some ⟨2, 9⟩ := by decide
example : pyFloat? "1.5" = some ⟨15, 1⟩ := by decide
example : pyFloat? "ERR" = none := by decide
example : pyFloat? "" = none := by decide
example : pySplit "a b" ' ' = ["a", "b"] := by decide
example : pySplit "" '\n' = [""] := by decide
example :
    convert_to_vector ⟨2, 9⟩ (some "C1:INSP\n1.5 1.6\nC3:INSP\n0.5") =
      .ok [some [(⟨0, 9⟩, ⟨15, 1⟩), (⟨2, 9⟩, ⟨16, 1⟩)], none,
           some [(⟨0, 9⟩, ⟨5, 1⟩)], none] := by decide
example :
    convert_to_vector ⟨2, 9⟩ none = .ok [none, none, none, none] := by decide
example :
    convert_to_vector ⟨2, 9⟩ (some "") = .ok [none, none, none, some []] := by
  decide
example :
    convert_to_vector ⟨2, 9⟩ (some "1.5 2.5") =
      .ok [none, none, none, some [(⟨0, 9⟩, ⟨15, 1⟩), (⟨2, 9⟩, ⟨25, 1⟩)]] := by
  decide

end Thorium
